import Mathlib

/-!
Verification development for the secscraper repository: a shallow embedding of
its HTTP access layer, CSV repositories, and ingestion services, together with
theorems settling the specification claims.  Python machine behaviour (string
padding, decimal arithmetic, ISO timestamps, exception classes) is modelled
explicitly; external collaborators (HTTP transport, the trading calendar) are
passed in as oracle parameters, following the spec's interface framing.
-/

set_option autoImplicit false

deriving instance DecidableEq for Except

namespace SecScraper

/-- Per-element `Option`-valued traversal of a list, as the Python loops
perform it: the first failing element fails the whole traversal. -/
def mapOpt {α β : Type} (f : α → Option β) : List α → Option (List β)
  | [] => some []
  | a :: t =>
    match f a with
    | none => none
    | some b =>
      match mapOpt f t with
      | none => none
      | some bs => some (b :: bs)

/-- Per-element `Except`-valued traversal of a list: the first raising
element aborts the whole traversal. -/
def mapExcept {ε α β : Type} (f : α → Except ε β) :
    List α → Except ε (List β)
  | [] => .ok []
  | a :: t =>
    match f a with
    | .error e => .error e
    | .ok b =>
      match mapExcept f t with
      | .error e => .error e
      | .ok bs => .ok (b :: bs)

/-! ## Python string and digit primitives -/

/-- Python `str.zfill(width)`: left-pad with `'0'` to `width`, keeping a
leading sign character in front of the padding. -/
def zfill (width : Nat) (s : String) : String :=
  if width ≤ s.length then s
  else
    let pad := List.replicate (width - s.length) '0'
    match s.data with
    | '-' :: rest => String.mk ('-' :: (pad ++ rest))
    | '+' :: rest => String.mk ('+' :: (pad ++ rest))
    | l => String.mk (pad ++ l)

/-- The ASCII digit character for `n < 10`. -/
def digitChar (n : Nat) : Char := Char.ofNat (48 + n)

/-- Numeric value of an ASCII digit character. -/
def digitVal (c : Char) : Nat := c.toNat - 48

/-- Value of a two-digit character pair. -/
def val2 (a b : Char) : Nat := digitVal a * 10 + digitVal b

/-- Two-digit zero-padded rendering of `n < 100`. -/
def pad2 (n : Nat) : List Char := [digitChar (n / 10), digitChar (n % 10)]

/-- Four-digit zero-padded rendering of `n < 10000`. -/
def pad4 (n : Nat) : List Char := pad2 (n / 100) ++ pad2 (n % 100)

/-- Six-digit zero-padded rendering of `n < 1000000`. -/
def pad6 (n : Nat) : List Char :=
  pad2 (n / 10000) ++ pad2 (n / 100 % 100) ++ pad2 (n % 100)

/-- Little-endian base-10 digits, structurally recursive on a fuel bound so
that the kernel can evaluate it; `fuel ≥ n` makes it total. -/
def natDigitsAux : Nat → Nat → List Nat
  | _, 0 => []
  | 0, _ + 1 => []
  | fuel + 1, n + 1 => ((n + 1) % 10) :: natDigitsAux fuel ((n + 1) / 10)

/-- Python `str(n)` for a natural number, as a character list. -/
def natToChars (n : Nat) : List Char :=
  if n = 0 then ['0'] else ((natDigitsAux n n).map digitChar).reverse

/-- Base-10 accumulation of a digit-character list. -/
def digitsFold (cs : List Char) : Nat :=
  cs.foldl (fun a c => a * 10 + digitVal c) 0

/-- Parse a nonempty all-digit character list as a natural number (the
behaviour of Python `int(s)` on the strings this system writes). -/
def parseNatChars (cs : List Char) : Option Nat :=
  if cs = [] then none
  else if cs.all Char.isDigit then some (digitsFold cs) else none

/-- Python `str(i)` for an integer, as a character list. -/
def intToChars (i : Int) : List Char :=
  if i < 0 then '-' :: natToChars i.natAbs else natToChars i.natAbs

/-- Parse an optionally `'-'`-signed digit string as an integer (the coercion
pydantic applies to an `int` field fed from a CSV cell). -/
def parseIntChars (cs : List Char) : Option Int :=
  if cs.head? = some '-' then
    (parseNatChars cs.tail).map (fun n => -(Int.ofNat n))
  else (parseNatChars cs).map (fun n => Int.ofNat n)

/-- Python `str.upper()` combined with `replace("-", ".")`: the symbol
normalization validator shared by `Company` and `EarningsReport`. -/
def normalizeSymbol (s : String) : String :=
  String.mk (s.data.map (fun c => if c = '-' then '.' else c.toUpper))

/-- Whether `needle` is a prefix of `hay`. -/
def isPrefixList : List Char → List Char → Bool
  | [], _ => true
  | _ :: _, [] => false
  | a :: as, b :: bs => a = b && isPrefixList as bs

/-- Python `needle in hay` substring containment on character lists. -/
def containsSub (needle : List Char) : List Char → Bool
  | [] => isPrefixList needle []
  | c :: cs => isPrefixList needle (c :: cs) || containsSub needle cs

/-- Python `str.lower()` on a string's characters. -/
def lowerChars (s : String) : List Char := s.data.map Char.toLower

/-! ## Timestamps

Naive Python `datetime` values as emitted by `datetime.utcnow()` and
`datetime.strptime`; `usec` is the microsecond component. -/

structure DateTime where
  year : Nat
  month : Nat
  day : Nat
  hour : Nat
  minute : Nat
  second : Nat
  usec : Nat
deriving DecidableEq, Repr

/-- The range constraints Python's `datetime` constructor enforces (the
day-of-month is bounded by 31; finer calendar checks are not needed by any
claim). -/
def DateTime.wf (d : DateTime) : Prop :=
  1 ≤ d.year ∧ d.year ≤ 9999 ∧ 1 ≤ d.month ∧ d.month ≤ 12 ∧
  1 ≤ d.day ∧ d.day ≤ 31 ∧ d.hour ≤ 23 ∧ d.minute ≤ 59 ∧
  d.second ≤ 59 ∧ d.usec ≤ 999999

instance (d : DateTime) : Decidable d.wf := by
  unfold DateTime.wf; infer_instance

/-- Linearization of a timestamp; on well-formed values it is an order
embedding for the instant ordering pandas uses to compare timestamps. -/
def DateTime.key (d : DateTime) : Nat :=
  (((((d.year * 13 + d.month) * 32 + d.day) * 24 + d.hour) * 60 + d.minute)
      * 60 + d.second) * 1000000 + d.usec

/-- Timestamp comparison (pandas `<=` on parsed timestamps). -/
def DateTime.leb (a b : DateTime) : Bool := a.key ≤ b.key

/-- Python `datetime.isoformat()`: `YYYY-MM-DDTHH:MM:SS` with a `.ffffff`
suffix exactly when the microsecond component is nonzero. -/
def DateTime.isoChars (d : DateTime) : List Char :=
  pad4 d.year ++ '-' :: pad2 d.month ++ '-' :: pad2 d.day ++
    'T' :: pad2 d.hour ++ ':' :: pad2 d.minute ++ ':' :: pad2 d.second ++
    (if d.usec = 0 then [] else '.' :: pad6 d.usec)

def DateTime.isoformat (d : DateTime) : String := String.mk d.isoChars

/-- Parser for the ISO strings `isoformat` emits: the behaviour of
`pd.to_datetime` (and of pydantic's datetime coercion) on the timestamp
strings this system writes to its CSV files. -/
def parseIsoChars : List Char → Option DateTime
  | y1 :: y2 :: y3 :: y4 :: '-' :: m1 :: m2 :: '-' :: d1 :: d2 ::
      'T' :: h1 :: h2 :: ':' :: n1 :: n2 :: ':' :: s1 :: s2 :: rest =>
    if ([y1, y2, y3, y4, m1, m2, d1, d2, h1, h2, n1, n2, s1, s2].all
        Char.isDigit) then
      let base : DateTime :=
        ⟨val2 y1 y2 * 100 + val2 y3 y4, val2 m1 m2, val2 d1 d2,
          val2 h1 h2, val2 n1 n2, val2 s1 s2, 0⟩
      match rest with
      | [] => some base
      | ['.', u1, u2, u3, u4, u5, u6] =>
        if [u1, u2, u3, u4, u5, u6].all Char.isDigit then
          some { base with
                  usec := val2 u1 u2 * 10000 + val2 u3 u4 * 100 + val2 u5 u6 }
        else none
      | _ => none
    else none
  | _ => none

def parseIso (s : String) : Option DateTime := parseIsoChars s.data

/-- `datetime.strptime(s, "%Y-%m-%d")`: strict date-only parse. -/
def parseDateYMD (s : String) : Option DateTime :=
  match s.data with
  | [y1, y2, y3, y4, '-', m1, m2, '-', d1, d2] =>
    if ([y1, y2, y3, y4, m1, m2, d1, d2].all Char.isDigit) then
      let y := val2 y1 y2 * 100 + val2 y3 y4
      let m := val2 m1 m2
      let d := val2 d1 d2
      if 1 ≤ m && m ≤ 12 && 1 ≤ d && d ≤ 31 && 1 ≤ y then
        some ⟨y, m, d, 0, 0, 0, 0⟩
      else none
    else none
  | _ => none

/-- `date.strftime("%Y-%m-%d")` on the date part of a timestamp. -/
def DateTime.dateChars (d : DateTime) : List Char :=
  pad4 d.year ++ '-' :: pad2 d.month ++ '-' :: pad2 d.day

def DateTime.dateString (d : DateTime) : String := String.mk d.dateChars

/-! ## Time of day -/

/-- Python `datetime.time` as held in `EarningsReport.report_time`. -/
structure TimeOfDay where
  hour : Nat
  minute : Nat
  second : Nat
deriving DecidableEq, Repr

/-- `datetime.strptime(s, "%H:%M").time()`: strict hour-minute parse. -/
def parseTimeHM (s : String) : Option TimeOfDay :=
  match s.data with
  | [h1, h2, ':', m1, m2] =>
    if [h1, h2, m1, m2].all Char.isDigit then
      let h := val2 h1 h2
      let m := val2 m1 m2
      if h ≤ 23 && m ≤ 59 then some ⟨h, m, 0⟩ else none
    else none
  | _ => none

/-- Python `str(time(...))`, the form a `time` value takes in a CSV cell. -/
def TimeOfDay.toChars (t : TimeOfDay) : List Char :=
  pad2 t.hour ++ ':' :: pad2 t.minute ++ ':' :: pad2 t.second

/-! ## Decimals

Python `decimal.Decimal` values: a signed mantissa together with the count of
fractional digits, so that exact scale-preserving subtraction and the string
constructor behave as in the source. -/

structure Dec where
  mant : Int
  exp : Nat
deriving DecidableEq, Repr

/-- The rational value of a decimal. -/
def Dec.val (d : Dec) : ℚ := (d.mant : ℚ) / ((10 : ℚ) ^ d.exp)

/-- Exact `Decimal` subtraction: operands are aligned to the finer scale and
the result keeps that scale, as Python does for exact results. -/
def Dec.sub (a b : Dec) : Dec :=
  let e := max a.exp b.exp
  ⟨a.mant * (10 : Int) ^ (e - a.exp) - b.mant * (10 : Int) ^ (e - b.exp), e⟩

/-- The `Decimal(string)` constructor on plain decimal literals, which is the
shape of the numeric strings in the report-source payloads. -/
def parseDecChars (cs : List Char) : Option Dec :=
  let (neg, body) :=
    if cs.head? = some '-' then (true, cs.tail)
    else if cs.head? = some '+' then (false, cs.tail) else (false, cs)
  let intPart := body.takeWhile (fun c => c ≠ '.')
  let rest := body.dropWhile (fun c => c ≠ '.')
  let fracPart := rest.tail
  if rest ≠ [] && rest.head? ≠ some '.' then none
  else if fracPart.any (fun c => c = '.') then none
  else if intPart ++ fracPart = [] then none
  else if (intPart ++ fracPart).all Char.isDigit then
    let m : Int := digitsFold (intPart ++ fracPart)
    some ⟨if neg then -m else m, fracPart.length⟩
  else none

def parseDec (s : String) : Option Dec := parseDecChars s.data

/-- Python `str(Decimal)` on the non-scientific decimals this system holds:
the mantissa digits with a point inserted `exp` places from the right. -/
def Dec.toChars (d : Dec) : List Char :=
  if d.exp = 0 then intToChars d.mant
  else
    let ds := natToChars d.mant.natAbs
    let padded := List.replicate (d.exp + 1 - ds.length) '0' ++ ds
    let cut := padded.length - d.exp
    (if d.mant < 0 then ['-'] else []) ++
      padded.take cut ++ '.' :: padded.drop cut

def Dec.toCell (d : Dec) : String := String.mk d.toChars

/-! ## Python exception model

One constructor per raise site reached by the embedded code; the `isAPIError`
class test mirrors `isinstance(e, APIError)` with `RateLimitError` a subclass
of `APIError`. -/

inductive PyErr where
  /-- `APIError(message, status_code, response_body)`. -/
  | apiError (msg : String) (statusCode : Option Nat)
      (responseBody : Option String)
  /-- `RateLimitError(message, status_code, response_body)`. -/
  | rateLimitError (msg : String) (statusCode : Option Nat)
      (responseBody : Option String)
  /-- `asyncio.TimeoutError` from the transport. -/
  | timeoutErr
  /-- any other transport exception, e.g. a connection failure. -/
  | otherErr (msg : String)
  /-- `KeyError(key)` from a missing dictionary key. -/
  | keyErr (key : String)
  /-- `ValueError`/pydantic `ValidationError` from record construction. -/
  | valueErr (msg : String)
  /-- `StorageError` from `add`: `"Entity with {field}={value} already exists"`. -/
  | duplicateEntity (keyField keyValue : String)
  /-- `StorageError` from `add_many`: `"One or more entities already exist"`. -/
  | duplicateEntities
  /-- `StorageError` from `get`/`get_all`: failed model conversion. -/
  | convertFailure
  /-- `StorageError` from `get_by_date_range`: failed date processing. -/
  | queryFailure
  /-- `StorageError` wrapper raised by `add_daily_report`. -/
  | addDailyFailure (inner : PyErr)
deriving DecidableEq, Repr

/-- `isinstance(e, APIError)`: true for `APIError` and its subclass
`RateLimitError`. -/
def PyErr.isAPIError : PyErr → Bool
  | .apiError .. => true
  | .rateLimitError .. => true
  | _ => false

/-- Python `str(e)`: the message carried by the exception. -/
def PyErr.pyStr : PyErr → String
  | .apiError msg _ _ => msg
  | .rateLimitError msg _ _ => msg
  | .timeoutErr => ""
  | .otherErr msg => msg
  | .keyErr key => key
  | .valueErr msg => msg
  | .duplicateEntity kf kv => "Entity with " ++ kf ++ "=" ++ kv ++
      " already exists"
  | .duplicateEntities => "One or more entities already exist"
  | .convertFailure => "Failed to convert data to model"
  | .queryFailure => "Failed to process date range query"
  | .addDailyFailure inner => "Failed to add daily report: " ++ inner.pyStr

/-! ## Generic CSV repository

A persisted row is the dictionary `_model_to_dict` produces: a map from
column name to cell text, with `''` standing for a missing value (the file is
written with `na_rep=''` and read with `na_values=['']`).  A store is the
row list of one CSV file. -/

abbrev Row := List (String × String)

abbrev Store := List Row

/-- Look up a column's cell in a row. -/
def rowGet (r : Row) (field : String) : Option String :=
  (r.find? (fun p => p.1 = field)).map (fun p => p.2)

/-- The key column as `_read_df` exposes it: the stored cell re-padded with
`str.zfill(10)`. -/
def readKeyCell (keyField : String) (r : Row) : String :=
  zfill 10 ((rowGet r keyField).getD "")

/-- The serialization half of a concrete repository: the key field name, the
Python `str(getattr(entity, key_field))` accessor, and `_model_to_dict`. -/
structure CsvRepo (α : Type) where
  keyField : String
  keyOf : α → String
  toRow : α → Row

/-- Result of a mutating repository call: the exception it raised, if any,
and the file contents after the call returns or raises.  The raise sites in
`add`/`add_many` precede the single `_write_df`, so a raising call leaves the
file as it was. -/
structure MutOutcome where
  error : Option PyErr
  store : Store
deriving DecidableEq, Repr

/-- `CSVRepository.add`: read the file, reject a key already present, else
append the serialized row and rewrite the file. -/
def csvAdd {α : Type} (repo : CsvRepo α) (st : Store) (e : α) : MutOutcome :=
  let kv := zfill 10 (repo.keyOf e)
  if st.any (fun r => readKeyCell repo.keyField r = kv) then
    { error := some (.duplicateEntity repo.keyField kv), store := st }
  else
    { error := none, store := st ++ [repo.toRow e] }

/-- `CSVRepository.add_many`: an empty batch returns at once; otherwise the
new keys (as serialized by `_model_to_dict`) are intersected with the stored
keys and the whole batch is rejected on a nonempty intersection — the batch
is never compared against itself. -/
def csvAddMany {α : Type} (repo : CsvRepo α) (st : Store) (es : List α) :
    MutOutcome :=
  match es with
  | [] => { error := none, store := st }
  | _ =>
    let newRows := es.map repo.toRow
    let newKeys := newRows.map (fun r => (rowGet r repo.keyField).getD "")
    if st.any (fun r => newKeys.contains (readKeyCell repo.keyField r)) then
      { error := some .duplicateEntities, store := st }
    else
      { error := none, store := st ++ newRows }

/-- The row `CSVRepository.get` selects for a key: the first row whose
re-padded key cell equals the re-padded requested id. -/
def csvFindRow (keyField : String) (st : Store) (id_ : String) : Option Row :=
  st.find? (fun r => readKeyCell keyField r = zfill 10 id_)

/-- `clean_nan_values` composed with the `na_values=['']` read: an empty cell
comes back as a missing value, everything else as its text. -/
def cellOpt (s : String) : Option String := if s = "" then none else some s

/-- A row's cell for a column, as the conversion loop sees it after
`clean_nan_values`. -/
def rowCell (r : Row) (f : String) : Option String :=
  cellOpt ((rowGet r f).getD "")

/-- Missing optional values serialize as the empty cell. -/
def optCell (o : Option String) : String := o.getD ""

/-! ## Company model -/

inductive Exchange where
  | nyse | nasdaq | amex | otc | other
deriving DecidableEq, Repr

def Exchange.value : Exchange → String
  | .nyse => "NYSE"
  | .nasdaq => "NASDAQ"
  | .amex => "AMEX"
  | .otc => "OTC"
  | .other => "OTHER"

/-- Pydantic's by-value lookup for a `str`-valued enum field. -/
def Exchange.ofValue : String → Option Exchange
  | "NYSE" => some .nyse
  | "NASDAQ" => some .nasdaq
  | "AMEX" => some .amex
  | "OTC" => some .otc
  | "OTHER" => some .other
  | _ => none

inductive CompanyStatus where
  | active | delisted | suspended | acquired | bankrupt
deriving DecidableEq, Repr

def CompanyStatus.value : CompanyStatus → String
  | .active => "ACTIVE"
  | .delisted => "DELISTED"
  | .suspended => "SUSPENDED"
  | .acquired => "ACQUIRED"
  | .bankrupt => "BANKRUPT"

def CompanyStatus.ofValue : String → Option CompanyStatus
  | "ACTIVE" => some .active
  | "DELISTED" => some .delisted
  | "SUSPENDED" => some .suspended
  | "ACQUIRED" => some .acquired
  | "BANKRUPT" => some .bankrupt
  | _ => none

/-- `Company`, including the fields inherited from
`BaseModelWithTimestamp` and `AuditableModel`, in pydantic field order. -/
structure Company where
  createdAt : DateTime
  updatedAt : Option DateTime
  createdBy : Option String
  updatedBy : Option String
  version : Int
  cik : String
  symbol : String
  name : String
  exchange : Exchange
  status : CompanyStatus
  description : Option String
  sector : Option String
  industry : Option String
  website : Option String
deriving DecidableEq, Repr

/-- The constraints a constructed `Company` satisfies: the field bounds and
pattern pydantic enforces, the symbol-normalization validator having been
applied, and datetimes in `datetime`'s representable ranges. -/
def Company.validb (c : Company) : Bool :=
  c.cik.length = 10 && c.cik.data.all Char.isDigit &&
  1 ≤ c.symbol.length && c.symbol.length ≤ 10 &&
  normalizeSymbol c.symbol = c.symbol &&
  1 ≤ c.name.length && c.name.length ≤ 200 &&
  decide c.createdAt.wf &&
  (match c.updatedAt with | none => true | some d => decide d.wf)

/-- `_model_to_dict` instantiated at `Company`: datetimes to `isoformat`,
enums to their values, the key field zero-padded, `None` to the empty cell. -/
def companyToRow (c : Company) : Row :=
  [("created_at", c.createdAt.isoformat),
   ("updated_at", match c.updatedAt with
     | some d => d.isoformat
     | none => ""),
   ("created_by", optCell c.createdBy),
   ("updated_by", optCell c.updatedBy),
   ("version", String.mk (intToChars c.version)),
   ("cik", zfill 10 c.cik),
   ("symbol", c.symbol),
   ("name", c.name),
   ("exchange", c.exchange.value),
   ("status", c.status.value),
   ("description", optCell c.description),
   ("sector", optCell c.sector),
   ("industry", optCell c.industry),
   ("website", optCell c.website)]

/-- A required datetime column on read: `pd.to_datetime` on a nonempty cell,
a missing value otherwise — either failure mode surfaces as the conversion
`StorageError`. -/
def readReqDate (o : Option String) : Except PyErr DateTime :=
  match o with
  | none => .error .convertFailure
  | some s =>
    match parseIso s with
    | some d => .ok d
    | none => .error .convertFailure

/-- An `Optional[datetime]` column on read: pydantic's ISO coercion. -/
def readOptDate (o : Option String) : Except PyErr (Option DateTime) :=
  match o with
  | none => .ok none
  | some s =>
    match parseIso s with
    | some d => .ok (some d)
    | none => .error .convertFailure

/-- A required string column on read. -/
def readReqStr (o : Option String) : Except PyErr String :=
  match o with
  | none => .error .convertFailure
  | some s => .ok s

/-- An `int` column on read: pydantic's string-to-int coercion. -/
def readReqInt (o : Option String) : Except PyErr Int :=
  match o with
  | none => .error .convertFailure
  | some s =>
    match parseIntChars s.data with
    | some i => .ok i
    | none => .error .convertFailure

/-- Pydantic bounds checks; any violation becomes the conversion error. -/
def checkThat (ok : Bool) : Except PyErr Unit :=
  if ok then .ok () else .error .convertFailure

/-- The conversion loop of `CSVRepository.get` instantiated at `Company`,
followed by pydantic validation: datetime columns parsed, the key column
re-padded, constraint checks, and the symbol validator. -/
def companyOfRow (r : Row) : Except PyErr Company := do
  let createdAt ← readReqDate (rowCell r "created_at")
  let updatedAt ← readOptDate (rowCell r "updated_at")
  let version ← readReqInt (rowCell r "version")
  let cik0 ← readReqStr (rowCell r "cik")
  let cik := zfill 10 cik0
  checkThat (cik.data.all Char.isDigit && cik.length = 10)
  let symbol0 ← readReqStr (rowCell r "symbol")
  checkThat (1 ≤ symbol0.length && symbol0.length ≤ 10)
  let name ← readReqStr (rowCell r "name")
  checkThat (1 ≤ name.length && name.length ≤ 200)
  let exchange ← match Exchange.ofValue ((rowCell r "exchange").getD "") with
    | some e => Except.ok e
    | none => Except.error .convertFailure
  let status ← match CompanyStatus.ofValue ((rowCell r "status").getD "") with
    | some s => Except.ok s
    | none => Except.error .convertFailure
  .ok { createdAt, updatedAt,
        createdBy := rowCell r "created_by",
        updatedBy := rowCell r "updated_by",
        version, cik, symbol := normalizeSymbol symbol0, name,
        exchange, status,
        description := rowCell r "description",
        sector := rowCell r "sector",
        industry := rowCell r "industry",
        website := rowCell r "website" }

/-- The company repository as wired in `run_scraper.py`: keyed on `cik`. -/
def companyCsvRepo : CsvRepo Company :=
  { keyField := "cik", keyOf := fun c => c.cik, toRow := companyToRow }

/-- `CSVRepository.get` instantiated at `Company`. -/
def companyGet (st : Store) (id_ : String) : Except PyErr (Option Company) :=
  match csvFindRow "cik" st id_ with
  | none => .ok none
  | some r => (companyOfRow r).map some

/-- `CSVRepository.get_all` instantiated at `Company`. -/
def getAllCompanies (st : Store) : Except PyErr (List Company) :=
  mapExcept companyOfRow st

/-! ## Earnings model -/

inductive MarketSession where
  | preMarket | afterMarket | duringMarket | unspecified
deriving DecidableEq, Repr

def MarketSession.value : MarketSession → String
  | .preMarket => "PRE"
  | .afterMarket => "POST"
  | .duringMarket => "DURING"
  | .unspecified => "UNSPECIFIED"

inductive EarningsStatus where
  | confirmed | tentative | estimated | reported | delayed | cancelled
deriving DecidableEq, Repr

def EarningsStatus.value : EarningsStatus → String
  | .confirmed => "CONFIRMED"
  | .tentative => "TENTATIVE"
  | .estimated => "ESTIMATED"
  | .reported => "REPORTED"
  | .delayed => "DELAYED"
  | .cancelled => "CANCELLED"

/-- `EarningsReport`, including the inherited audit fields, in pydantic
field order. -/
structure EarningsReport where
  createdAt : DateTime
  updatedAt : Option DateTime
  createdBy : Option String
  updatedBy : Option String
  version : Int
  companyCik : String
  symbol : String
  reportDate : DateTime
  epsEstimate : Option Dec
  epsActual : Option Dec
  revenueEstimate : Option Dec
  revenueActual : Option Dec
  marketSession : MarketSession
  status : EarningsStatus
  reportTime : Option TimeOfDay
  conferenceCallUrl : Option String
  epsSurprise : Option Dec
  revenueSurprise : Option Dec
deriving DecidableEq, Repr

/-- `EarningsReport.calculate_surprises`: each surprise is assigned only when
both sides of its pair are present, and is `actual - estimate` computed in
exact decimals; otherwise the stored value is left alone. -/
def calculateSurprises (r : EarningsReport) : EarningsReport :=
  { r with
    epsSurprise :=
      match r.epsEstimate, r.epsActual with
      | some est, some act => some (act.sub est)
      | _, _ => r.epsSurprise,
    revenueSurprise :=
      match r.revenueEstimate, r.revenueActual with
      | some est, some act => some (act.sub est)
      | _, _ => r.revenueSurprise }

def optDecCell (o : Option Dec) : String :=
  match o with
  | some d => d.toCell
  | none => ""

/-- `_model_to_dict` instantiated at `EarningsReport`.  The declared key
field is `symbol`, so the symbol cell is the zero-padded symbol. -/
def earningsToRow (r : EarningsReport) : Row :=
  [("created_at", r.createdAt.isoformat),
   ("updated_at", match r.updatedAt with
     | some d => d.isoformat
     | none => ""),
   ("created_by", optCell r.createdBy),
   ("updated_by", optCell r.updatedBy),
   ("version", String.mk (intToChars r.version)),
   ("company_cik", r.companyCik),
   ("symbol", zfill 10 r.symbol),
   ("report_date", r.reportDate.isoformat),
   ("eps_estimate", optDecCell r.epsEstimate),
   ("eps_actual", optDecCell r.epsActual),
   ("revenue_estimate", optDecCell r.revenueEstimate),
   ("revenue_actual", optDecCell r.revenueActual),
   ("market_session", r.marketSession.value),
   ("status", r.status.value),
   ("report_time", match r.reportTime with
     | some t => String.mk t.toChars
     | none => ""),
   ("conference_call_url", optCell r.conferenceCallUrl),
   ("eps_surprise", optDecCell r.epsSurprise),
   ("revenue_surprise", optDecCell r.revenueSurprise)]

/-- The report store as declared in `EarningsRepository.__init__`: keyed on
`symbol` alone. -/
def earningsCsvRepo : CsvRepo EarningsReport :=
  { keyField := "symbol", keyOf := fun r => r.symbol, toRow := earningsToRow }

/-! ## Earnings repository: dual write -/

/-- The daily partition files, an association from file name to contents; a
name not yet present denotes the fresh header-only file
`_ensure_file_exists` creates. -/
abbrev FileSys := List (String × Store)

def fsGet (fs : FileSys) (name : String) : Store :=
  ((fs.find? (fun p => p.1 = name)).map (fun p => p.2)).getD []

def fsSet (fs : FileSys) (name : String) (st : Store) : FileSys :=
  if fs.any (fun p => p.1 = name) then
    fs.map (fun p => if p.1 = name then (name, st) else p)
  else fs ++ [(name, st)]

/-- The daily partition file name for a date:
`date.strftime('%Y-%m-%d') + "_earnings.csv"`. -/
def dailyFileName (d : DateTime) : String := d.dateString ++ "_earnings.csv"

/-- State of the earnings repository: the daily partition directory plus the
master file. -/
structure EarningsState where
  daily : FileSys
  master : Store
deriving DecidableEq, Repr

/-- `EarningsRepository.add_daily_report`: add to the date's partition file,
then to the master file; a failure of either add is wrapped in a
`StorageError` and leaves the remaining write unexecuted — there is no
rollback of a daily write whose master write fails. -/
def addDailyReport (st : EarningsState) (date : DateTime)
    (r : EarningsReport) : Option PyErr × EarningsState :=
  let fname := dailyFileName date
  let o1 := csvAdd earningsCsvRepo (fsGet st.daily fname) r
  match o1.error with
  | some e =>
    (some (.addDailyFailure e),
     { st with daily := fsSet st.daily fname o1.store })
  | none =>
    let o2 := csvAdd earningsCsvRepo st.master r
    match o2.error with
    | some e =>
      (some (.addDailyFailure e),
       { daily := fsSet st.daily fname o1.store, master := st.master })
    | none =>
      (none, { daily := fsSet st.daily fname o1.store, master := o2.store })

/-! ## HTTP client

`BaseAPIClient._make_request`: one attempt consists of dispatching the
request and handling the response inside a `try` whose handlers wrap any
exception — the 429 `RateLimitError` and the JSON-parse `APIError` included —
into a fresh generic `APIError`; the tenacity decorator then re-invokes the
attempt for up to `MAX_RETRIES` attempts while the exception is an
`APIError`, re-raising the last exception.  The transport is an oracle: one
`HTTPOutcome` per attempt. -/

inductive HTTPOutcome where
  /-- the server answered with a status, a body, and whether that body
  parses as JSON. -/
  | response (status : Nat) (validJson : Bool) (body : String)
  /-- `asyncio.TimeoutError`. -/
  | timeout
  /-- any other transport failure. -/
  | connectionFailure (msg : String)
deriving DecidableEq, Repr

/-- The body of the `try` block: raise `RateLimitError` on status 429,
otherwise hand the response to `_handle_response`, which returns the parsed
body or raises `APIError` when it is not JSON. -/
def tryBlockResult : HTTPOutcome → Except PyErr String
  | .response 429 _ body =>
    .error (.rateLimitError "Rate limit exceeded" (some 429) (some body))
  | .response status validJson body =>
    if validJson then .ok body
    else .error (.apiError "Failed to parse JSON response" (some status)
      (some body))
  | .timeout => .error .timeoutErr
  | .connectionFailure msg => .error (.otherErr msg)

/-- One attempt of `_make_request`: the `try` body followed by the two
`except` clauses, which wrap a timeout — and any other exception, the
`RateLimitError` included — into a generic `APIError` with no status code
and no response body. -/
def attemptOnce (url : String) (o : HTTPOutcome) : Except PyErr String :=
  match tryBlockResult o with
  | .ok v => .ok v
  | .error .timeoutErr =>
    .error (.apiError ("Request to " ++ url ++ " timed out") none none)
  | .error e =>
    .error (.apiError ("Request to " ++ url ++ " failed: " ++ e.pyStr)
      none none)

/-- The tenacity loop: `stop_after_attempt(maxAttempts)`,
`retry_if_exception_type(APIError)`, `reraise=True`.  Returns the final
result together with the number of attempts dispatched. -/
def retryLoop (maxAttempts : Nat) (url : String) :
    List HTTPOutcome → Nat → Except PyErr String × Nat
  | [], used => (.error (.otherErr "transport exhausted"), used)
  | o :: rest, used =>
    match attemptOnce url o with
    | .ok v => (.ok v, used + 1)
    | .error e =>
      if e.isAPIError && used + 1 < maxAttempts then
        retryLoop maxAttempts url rest (used + 1)
      else (.error e, used + 1)

/-- `_make_request` against a given sequence of transport outcomes. -/
def makeRequest (maxAttempts : Nat) (url : String)
    (outcomes : List HTTPOutcome) : Except PyErr String × Nat :=
  retryLoop maxAttempts url outcomes 0

/-! ## Time-range queries and the earnings summary -/

/-- `pd.to_datetime` applied to the whole date column: every row's date cell
parsed, or a failure for the whole conversion. -/
def parseAllDates (dateField : String) (st : Store) :
    Option (List (Row × DateTime)) :=
  mapOpt (fun r =>
    (parseIso ((rowGet r dateField).getD "")).map (fun d => (r, d))) st

/-- `TimeRangeCSVRepository.get_by_date_range`: convert the date column,
then keep the rows whose timestamp satisfies `start <= t <= end`; a failing
conversion fails the whole query with a `StorageError`.  Each surviving row
is returned together with its parsed timestamp, which is exactly the
timestamp the constructed model carries. -/
def getByDateRange (dateField : String) (st : Store)
    (startD endD : DateTime) : Except PyErr (List (Row × DateTime)) :=
  match parseAllDates dateField st with
  | none => .error .queryFailure
  | some l => .ok (l.filter (fun p => startD.leb p.2 && p.2.leb endD))

/-- The `symbol` attribute of an entity deserialized from a report row: the
key column is re-padded on read and then passed through the symbol
validator. -/
def entitySymbol (r : Row) : String :=
  normalizeSymbol (zfill 10 ((rowGet r "symbol").getD ""))

/-- `EarningsRepository.get_by_symbol` with both bounds supplied: the range
query filtered on the deserialized symbol. -/
def getBySymbol (st : Store) (symbol : String) (startD endD : DateTime) :
    Except PyErr (List (Row × DateTime)) :=
  (getByDateRange "report_date" st startD endD).map
    (List.filter (fun p => entitySymbol p.1 = symbol))

structure EarningsSummary where
  symbol : String
  periodStart : DateTime
  periodEnd : DateTime
  totalReports : Nat
  beatEstimates : Nat
  missedEstimates : Nat
  averageSurprise : Option ℚ
deriving DecidableEq, Repr

/-- The `eps_surprise` attribute of a deserialized report row. -/
def rowEpsSurprise (r : Row) : Option Dec :=
  (cellOpt ((rowGet r "eps_surprise").getD "")).bind parseDec

/-- `EarningsSummary.from_reports`: raises `ValueError` on an empty report
list, otherwise aggregates counts and the average surprise (averaging
modelled at the value level). -/
def fromReports (reports : List (Row × DateTime)) (startD endD : DateTime) :
    Except PyErr EarningsSummary :=
  match reports with
  | [] => .error (.valueErr "Cannot create summary from empty reports list")
  | first :: _ =>
    let surprises := reports.filterMap (fun p => rowEpsSurprise p.1)
    .ok { symbol := entitySymbol first.1, periodStart := startD,
          periodEnd := endD, totalReports := reports.length,
          beatEstimates := surprises.countP (fun d => 0 < d.val),
          missedEstimates := surprises.countP (fun d => d.val < 0),
          averageSurprise :=
            if surprises.isEmpty then none
            else some ((surprises.map Dec.val).sum / surprises.length) }

/-- `EarningsRepository.get_summary`: query by symbol and range, return the
not-found value on an empty result, and only otherwise build a summary. -/
def getSummary (st : Store) (symbol : String) (startD endD : DateTime) :
    Except PyErr (Option EarningsSummary) :=
  match getBySymbol st symbol startD endD with
  | .error e => .error e
  | .ok [] => .ok none
  | .ok reports => (fromReports reports startD endD).map some

/-! ## Earnings ingestion service -/

/-- One row of the report-source payload (`data.rows`). -/
structure RawRow where
  symbol : Option String
  date : Option String
  time : Option String
  epsEstimate : Option String
  epsActual : Option String
  revenueEstimate : Option String
  revenueActual : Option String
deriving DecidableEq, Repr

/-- Python falsiness of an optional string: absent or empty. -/
def falsy (o : Option String) : Bool := o = none || o = some ""

/-- `Decimal(str(row.get(k, 0))) if row.get(k) else None`: a falsy cell
leaves the field unset; an unparseable one raises, dropping the row. -/
def parseOptDecField (o : Option String) : Option (Option Dec) :=
  if falsy o then some none
  else (parseDec (o.getD "")).map some

/-- The market-session classification of `_process_earnings_data`:
case-insensitive substring cues on the free-text time hint. -/
def classifySession (timeStr : String) : MarketSession :=
  if timeStr = "" then .unspecified
  else if containsSub "before".data (lowerChars timeStr) then .preMarket
  else if containsSub "after".data (lowerChars timeStr) then .afterMarket
  else .unspecified

/-- The body of the per-row `try` in `_process_earnings_data`: resolve the
identifier through the cache oracle, parse the date strictly, tolerate a
garbled time, classify the session, convert the numeric strings to exact
decimals, construct the report (pydantic validation included) and compute
its surprises.  Any failure returns `none`: the row alone is dropped. -/
def processEarningsRow (now : DateTime) (cikLookup : String → Option String)
    (row : RawRow) : Option EarningsReport := do
  if falsy row.symbol then none
  else
    let symbol := row.symbol.getD ""
    match cikLookup (normalizeSymbol symbol) with
    | none => none
    | some cik =>
      if cik = "" then none
      else do
        let reportDate ← parseDateYMD (row.date.getD "")
        let timeStr := row.time.getD ""
        let reportTime := if timeStr = "" then none else parseTimeHM timeStr
        let epsEstimate ← parseOptDecField row.epsEstimate
        let epsActual ← parseOptDecField row.epsActual
        let revenueEstimate ← parseOptDecField row.revenueEstimate
        let revenueActual ← parseOptDecField row.revenueActual
        if cik.data.all Char.isDigit && cik.length = 10 &&
            1 ≤ symbol.length && symbol.length ≤ 10 then
          some (calculateSurprises
            { createdAt := now, updatedAt := none, createdBy := none,
              updatedBy := none, version := 1, companyCik := cik,
              symbol := normalizeSymbol symbol, reportDate,
              epsEstimate, epsActual, revenueEstimate, revenueActual,
              marketSession := classifySession timeStr,
              status := .confirmed, reportTime, conferenceCallUrl := none,
              epsSurprise := none, revenueSurprise := none })
        else none

/-- `EarningsService._process_earnings_data` over the payload rows. -/
def processEarningsData (now : DateTime) (cikLookup : String → Option String)
    (rows : List RawRow) : List EarningsReport :=
  rows.filterMap (processEarningsRow now cikLookup)

/-- The persistence loop of `fetch_daily_earnings`: each report is written
through `add_daily_report`; an error aborts the loop and propagates. -/
def persistReports (dateObj : DateTime) :
    List EarningsReport → EarningsState → Option PyErr × EarningsState
  | [], st => (none, st)
  | r :: rs, st =>
    match addDailyReport st dateObj r with
    | (some e, st2) => (some e, st2)
    | (none, st2) => persistReports dateObj rs st2

/-- `EarningsService.fetch_daily_earnings` with the trading-calendar oracle's
answer and the fetched payload supplied as inputs: a non-trading day
short-circuits to an empty result with no side effect; otherwise the payload
is processed and every report persisted to both files. -/
def fetchDailyEarnings (isTradingDay : Bool) (now : DateTime)
    (cikLookup : String → Option String) (dateObj : DateTime)
    (rows : List RawRow) (st : EarningsState) :
    Except PyErr (List EarningsReport) × EarningsState :=
  if isTradingDay then
    let reports := processEarningsData now cikLookup rows
    match persistReports dateObj reports st with
    | (some e, st2) => (.error e, st2)
    | (none, st2) => (.ok reports, st2)
  else (.ok [], st)

/-- Dates for the range walk are abstract day numbers; the trading calendar
enters only through its `next_trading_day` oracle. -/
def dailyCount (fetch : Nat → Except PyErr Nat) (d : Nat) : Nat :=
  match fetch d with
  | .ok n => n
  | .error _ => 0

/-- The loop of `EarningsService.update_earnings_data`: record the per-date
report count — zero when that date's ingestion raised — and step to the
oracle's next trading day.  The fuel argument bounds the iteration count; it
is sufficient whenever the oracle's answer strictly increases. -/
def updateLoop (next : Nat → Nat) (fetch : Nat → Except PyErr Nat) :
    Nat → Nat → Nat → List (Nat × Nat)
  | 0, _, _ => []
  | fuel + 1, cur, last =>
    if cur ≤ last then
      (cur, dailyCount fetch cur) :: updateLoop next fetch fuel (next cur) last
    else []

/-- `EarningsService.update_earnings_data` over `[startD, endD]`. -/
def updateEarningsData (next : Nat → Nat) (fetch : Nat → Except PyErr Nat)
    (startD endD : Nat) : List (Nat × Nat) :=
  updateLoop next fetch (endD + 1 - startD) startD endD

/-- The date sequence the range walk visits, written independently of the
fetch handling: the `next`-iterates of the start date while within bounds. -/
def tradingWalk (next : Nat → Nat) : Nat → Nat → Nat → List Nat
  | 0, _, _ => []
  | fuel + 1, cur, last =>
    if cur ≤ last then cur :: tradingWalk next fuel (next cur) last else []

/-! ## CIK service -/

/-- One entry of the identifier-source payload
(`{cik_str, ticker, title}`, with `symbol` as the fallback ticker key). -/
structure SecRow where
  cikStr : Option String
  ticker : Option String
  symbolAlt : Option String
  title : Option String
deriving DecidableEq, Repr

/-- `data.get("ticker") or data.get("symbol")`. -/
def pickSymbol (row : SecRow) : Option String :=
  if falsy row.ticker then row.symbolAlt else row.ticker

/-- One iteration of the `update_company_list` loop: skip a falsy symbol,
skip an already-known normalized symbol, read `cik_str` and `title` with
plain indexing — a missing key raises `KeyError`, which no handler catches —
and construct the `Company`, skipping the row when pydantic rejects it
(`ValidationError` is a `ValueError`). -/
def processSecRow (now : DateTime) (currentSymbols : List String)
    (row : SecRow) : Except PyErr (Option Company) :=
  let sym0 := pickSymbol row
  if falsy sym0 then .ok none
  else
    let symbol := normalizeSymbol (sym0.getD "")
    if currentSymbols.contains symbol then .ok none
    else
      match row.cikStr with
      | none => .error (.keyErr "cik_str")
      | some cikRaw =>
        match row.title with
        | none => .error (.keyErr "title")
        | some title =>
          let cik := zfill 10 cikRaw
          if cik.data.all Char.isDigit && cik.length = 10 &&
              1 ≤ title.length && title.length ≤ 200 &&
              1 ≤ symbol.length && symbol.length ≤ 10 then
            .ok (some
              { createdAt := now, updatedAt := none, createdBy := none,
                updatedBy := none, version := 1, cik, symbol, name := title,
                exchange := .other, status := .active, description := none,
                sector := none, industry := none, website := none })
          else .ok none

/-- The accumulation loop of `update_company_list`: new companies in payload
order, new symbols as a set (first occurrence kept). -/
def collectLoop (now : DateTime) (currentSymbols : List String) :
    List SecRow → List Company → List String →
    Except PyErr (List Company × List String)
  | [], accC, accS => .ok (accC, accS)
  | row :: rest, accC, accS =>
    match processSecRow now currentSymbols row with
    | .error e => .error e
    | .ok none => collectLoop now currentSymbols rest accC accS
    | .ok (some c) =>
      collectLoop now currentSymbols rest (accC ++ [c])
        (if accS.contains c.symbol then accS else accS ++ [c.symbol])

/-- `CIKService.update_company_list`: read the known companies, collect the
new ones from the payload, persist them in one `add_many` batch when any
exist, and return the new symbols with the resulting store. -/
def updateCompanyList (now : DateTime) (st : Store) (rows : List SecRow) :
    Except PyErr (List String × Store) :=
  match getAllCompanies st with
  | .error e => .error e
  | .ok cur =>
    match collectLoop now (cur.map (fun c => c.symbol)) rows [] [] with
    | .error e => .error e
    | .ok (newCs, newSyms) =>
      if newCs.isEmpty then .ok (newSyms, st)
      else
        let o := csvAddMany companyCsvRepo st newCs
        match o.error with
        | some e => .error e
        | none => .ok (newSyms, o.store)

/-- Declarative description of which payload rows produce a new company:
the rows the loop neither skips nor aborts on. -/
def newCompaniesOf (now : DateTime) (currentSymbols : List String)
    (rows : List SecRow) : List Company :=
  rows.filterMap (fun row =>
    match processSecRow now currentSymbols row with
    | .ok (some c) => some c
    | _ => none)

/-- None of a company's optional string fields is the empty string (the
blank cell and a genuinely absent value are indistinguishable on disk). -/
def Company.noBlankOpts (c : Company) : Bool :=
  c.createdBy ≠ some "" && c.updatedBy ≠ some "" &&
  c.description ≠ some "" && c.sector ≠ some "" &&
  c.industry ≠ some "" && c.website ≠ some ""

/-- The trading-day sequence of a range walk. -/
def tradingDays (next : Nat → Nat) (startD endD : Nat) : List Nat :=
  tradingWalk next (endD + 1 - startD) startD endD

/-! ## Concrete data for witnesses and counterexamples -/

/-- A fully populated valid company. -/
def wCompany : Company :=
  { createdAt := ⟨2024, 1, 2, 3, 4, 5, 0⟩,
    updatedAt := some ⟨2024, 2, 3, 4, 5, 6, 700000⟩,
    createdBy := none, updatedBy := none, version := 1,
    cik := "0000320193", symbol := "AAPL", name := "Apple Inc.",
    exchange := .nasdaq, status := .active,
    description := some "Tech", sector := some "Technology",
    industry := none, website := none }

/-- A second valid company with a distinct key. -/
def wCompanyB : Company :=
  { wCompany with
    cik := "0000000042", symbol := "MSFT",
    name := "Microsoft Corporation", description := none, sector := none }

/-- A valid company whose `description` is the empty string — a value
pydantic accepts for an `Optional[str]` field. -/
def cexBlankCompany : Company := { wCompany with description := some "" }

/-- The record `cexBlankCompany` reads back as: its blank `description`
returns as a missing value. -/
def cexBlankRead : Company := { wCompany with description := none }

/-- The raw report row of the end-to-end scenario. -/
def c5row : RawRow :=
  { symbol := some "AAPL", date := some "2024-11-30",
    time := some "16:30", epsEstimate := some "1.43",
    epsActual := some "1.52", revenueEstimate := none,
    revenueActual := none }

/-- The identifier cache of the end-to-end scenario. -/
def c5lookup : String → Option String :=
  fun s => if s = "AAPL" then some "0000320193" else none

def c5now : DateTime := ⟨2024, 12, 1, 0, 0, 0, 0⟩

def c5date : DateTime := ⟨2024, 11, 30, 0, 0, 0, 0⟩

/-- The report the end-to-end scenario is expected to persist. -/
def c5report : EarningsReport :=
  { createdAt := c5now, updatedAt := none, createdBy := none,
    updatedBy := none, version := 1, companyCik := "0000320193",
    symbol := "AAPL", reportDate := ⟨2024, 11, 30, 0, 0, 0, 0⟩,
    epsEstimate := some ⟨143, 2⟩, epsActual := some ⟨152, 2⟩,
    revenueEstimate := none, revenueActual := none,
    marketSession := .unspecified, status := .confirmed,
    reportTime := some ⟨16, 30, 0⟩, conferenceCallUrl := none,
    epsSurprise := some ⟨9, 2⟩, revenueSurprise := none }

/-- An earnings report dated 2024-11-29. -/
def wReport : EarningsReport :=
  { createdAt := c5now, updatedAt := none, createdBy := none,
    updatedBy := none, version := 1, companyCik := "0000320193",
    symbol := "AAPL", reportDate := ⟨2024, 11, 29, 0, 0, 0, 0⟩,
    epsEstimate := none, epsActual := none, revenueEstimate := none,
    revenueActual := none, marketSession := .unspecified,
    status := .confirmed, reportTime := none, conferenceCallUrl := none,
    epsSurprise := none, revenueSurprise := none }

/-- The same symbol reported on a different day. -/
def wReportOtherDay : EarningsReport :=
  { wReport with reportDate := ⟨2025, 1, 15, 0, 0, 0, 0⟩ }

/-- An identifier-source row with `ticker` but no `cik_str` key. -/
def badSecRow : SecRow :=
  { cikStr := none, ticker := some "AAA", symbolAlt := none,
    title := some "A Corp" }

/-- A well-formed identifier-source row. -/
def goodSecRow : SecRow :=
  { cikStr := some "123", ticker := some "BBB", symbolAlt := none,
    title := some "B Corp" }

/-- The company `goodSecRow` constructs. -/
def goodCompany : Company :=
  { createdAt := c5now, updatedAt := none, createdBy := none,
    updatedBy := none, version := 1, cik := "0000000123",
    symbol := "BBB", name := "B Corp", exchange := .other,
    status := .active, description := none, sector := none,
    industry := none, website := none }

/-- A concrete fetch oracle for the range-walk witness: date 1 raises, the
others yield as many reports as the day number. -/
def wFetch : Nat → Except PyErr Nat :=
  fun d => if d = 1 then .error (.apiError "boom" none none) else .ok d

/-! ## Digit and parse lemmas -/

theorem digitVal_digitChar {n : Nat} (h : n < 10) :
    digitVal (digitChar n) = n := by
  interval_cases n <;> decide

theorem isDigit_digitChar {n : Nat} (h : n < 10) :
    (digitChar n).isDigit = true := by
  interval_cases n <;> decide

theorem val2_digits {n : Nat} (h : n < 100) :
    val2 (digitChar (n / 10)) (digitChar (n % 10)) = n := by
  unfold val2
  rw [digitVal_digitChar (by omega), digitVal_digitChar (by omega)]
  omega

theorem parseIso_isoformat (d : DateTime) (h : d.wf) :
    parseIso d.isoformat = some d := by
  obtain ⟨h1, h2, h3, h4, h5, h6, h7, h8, h9, h10⟩ := h
  show parseIsoChars (DateTime.isoformat d).data = some d
  have hdata : (DateTime.isoformat d).data = d.isoChars := rfl
  rw [hdata]
  have ha : (digitChar (d.year / 100 / 10)).isDigit = true :=
    isDigit_digitChar (by omega)
  have hb : (digitChar (d.year / 100 % 10)).isDigit = true :=
    isDigit_digitChar (by omega)
  have hc : (digitChar (d.year % 100 / 10)).isDigit = true :=
    isDigit_digitChar (by omega)
  have hd : (digitChar (d.year % 100 % 10)).isDigit = true :=
    isDigit_digitChar (by omega)
  have he : (digitChar (d.month / 10)).isDigit = true :=
    isDigit_digitChar (by omega)
  have hf : (digitChar (d.month % 10)).isDigit = true :=
    isDigit_digitChar (by omega)
  have hg : (digitChar (d.day / 10)).isDigit = true :=
    isDigit_digitChar (by omega)
  have hh : (digitChar (d.day % 10)).isDigit = true :=
    isDigit_digitChar (by omega)
  have hi : (digitChar (d.hour / 10)).isDigit = true :=
    isDigit_digitChar (by omega)
  have hj : (digitChar (d.hour % 10)).isDigit = true :=
    isDigit_digitChar (by omega)
  have hk : (digitChar (d.minute / 10)).isDigit = true :=
    isDigit_digitChar (by omega)
  have hl : (digitChar (d.minute % 10)).isDigit = true :=
    isDigit_digitChar (by omega)
  have hm : (digitChar (d.second / 10)).isDigit = true :=
    isDigit_digitChar (by omega)
  have hn : (digitChar (d.second % 10)).isDigit = true :=
    isDigit_digitChar (by omega)
  by_cases hu : d.usec = 0
  · unfold DateTime.isoChars pad4 pad2
    rw [hu]
    simp only [if_pos rfl, List.cons_append, List.nil_append,
      List.append_nil, List.append_assoc]
    simp only [parseIsoChars, List.all_cons, List.all_nil, ha, hb, hc, hd,
      he, hf, hg, hh, hi, hj, hk, hl, hm, hn, Bool.and_self, Bool.and_true,
      if_true]
    rw [val2_digits (by omega : d.year / 100 < 100),
      val2_digits (by omega : d.year % 100 < 100),
      val2_digits (by omega : d.month < 100),
      val2_digits (by omega : d.day < 100),
      val2_digits (by omega : d.hour < 100),
      val2_digits (by omega : d.minute < 100),
      val2_digits (by omega : d.second < 100)]
    have : d.year / 100 * 100 + d.year % 100 = d.year := by omega
    rw [this]
    rw [show (⟨d.year, d.month, d.day, d.hour, d.minute, d.second, 0⟩ :
      DateTime) = d from by cases d; simp_all]
  · have hu1 : (digitChar (d.usec / 10000 / 10)).isDigit = true :=
      isDigit_digitChar (by omega)
    have hu2 : (digitChar (d.usec / 10000 % 10)).isDigit = true :=
      isDigit_digitChar (by omega)
    have hu3 : (digitChar (d.usec / 100 % 100 / 10)).isDigit = true :=
      isDigit_digitChar (by omega)
    have hu4 : (digitChar (d.usec / 100 % 100 % 10)).isDigit = true :=
      isDigit_digitChar (by omega)
    have hu5 : (digitChar (d.usec % 100 / 10)).isDigit = true :=
      isDigit_digitChar (by omega)
    have hu6 : (digitChar (d.usec % 100 % 10)).isDigit = true :=
      isDigit_digitChar (by omega)
    unfold DateTime.isoChars pad4 pad6 pad2
    rw [if_neg hu]
    simp only [List.cons_append, List.nil_append, List.append_assoc]
    simp only [parseIsoChars, List.all_cons, List.all_nil, ha, hb, hc, hd,
      he, hf, hg, hh, hi, hj, hk, hl, hm, hn, hu1, hu2, hu3, hu4, hu5, hu6,
      Bool.and_self, Bool.and_true, if_true]
    rw [val2_digits (by omega : d.year / 100 < 100),
      val2_digits (by omega : d.year % 100 < 100),
      val2_digits (by omega : d.month < 100),
      val2_digits (by omega : d.day < 100),
      val2_digits (by omega : d.hour < 100),
      val2_digits (by omega : d.minute < 100),
      val2_digits (by omega : d.second < 100),
      val2_digits (by omega : d.usec / 10000 < 100),
      val2_digits (by omega : d.usec / 100 % 100 < 100),
      val2_digits (by omega : d.usec % 100 < 100)]
    have hy : d.year / 100 * 100 + d.year % 100 = d.year := by omega
    have hus : d.usec / 10000 * 10000 + d.usec / 100 % 100 * 100 +
        d.usec % 100 = d.usec := by omega
    rw [hy, hus]

theorem natDigitsAux_eq (fuel n : Nat) (h : n ≤ fuel) :
    natDigitsAux fuel n = Nat.digits 10 n := by
  induction fuel generalizing n with
  | zero =>
    have : n = 0 := by omega
    rw [this]
    simp [natDigitsAux]
  | succ fuel ih =>
    cases n with
    | zero => simp [natDigitsAux]
    | succ m =>
      have hdiv : (m + 1) / 10 < m + 1 :=
        Nat.div_lt_self (Nat.succ_pos m) (by norm_num)
      rw [show natDigitsAux (fuel + 1) (m + 1) =
        ((m + 1) % 10) :: natDigitsAux fuel ((m + 1) / 10) from rfl]
      rw [ih _ (by omega)]
      rw [Nat.digits_def' (by norm_num : (1 : ℕ) < 10) (Nat.succ_pos m)]

theorem natToChars_all_digit (n : Nat) :
    (natToChars n).all Char.isDigit = true := by
  unfold natToChars
  split
  · decide
  · rw [natDigitsAux_eq n n le_rfl]
    rw [List.all_eq_true]
    intro c hc
    rw [List.mem_reverse, List.mem_map] at hc
    obtain ⟨dd, hdd, rfl⟩ := hc
    exact isDigit_digitChar (Nat.digits_lt_base (by norm_num) hdd)

theorem natToChars_ne_nil (n : Nat) : natToChars n ≠ [] := by
  unfold natToChars
  split
  · simp
  · rename_i hn
    rw [natDigitsAux_eq n n le_rfl]
    simp [Nat.digits_eq_nil_iff_eq_zero, hn]

theorem digitsFold_acc (ds : List Nat) (h : ∀ x ∈ ds, x < 10) (acc : Nat) :
    ((ds.map digitChar).reverse).foldl (fun a c => a * 10 + digitVal c) acc =
      acc * 10 ^ ds.length + Nat.ofDigits 10 ds := by
  induction ds generalizing acc with
  | nil => simp [Nat.ofDigits]
  | cons dd t ih =>
    simp only [List.map_cons, List.reverse_cons, List.foldl_append,
      List.foldl_cons, List.foldl_nil]
    rw [ih (fun x hx => h x (List.mem_cons_of_mem _ hx))]
    rw [digitVal_digitChar (h dd (List.mem_cons_self _ _))]
    rw [Nat.ofDigits_cons]
    simp only [List.length_cons]
    ring

theorem parseNat_natToChars (n : Nat) :
    parseNatChars (natToChars n) = some n := by
  unfold parseNatChars
  rw [if_neg (natToChars_ne_nil n), if_pos (natToChars_all_digit n)]
  congr 1
  unfold digitsFold natToChars
  split
  · rename_i hn
    rw [hn]; decide
  · rw [natDigitsAux_eq n n le_rfl]
    rw [digitsFold_acc _ (fun x hx => Nat.digits_lt_base (by norm_num) hx) 0]
    simp [Nat.ofDigits_digits]

theorem parseInt_intToChars (i : Int) :
    parseIntChars (intToChars i) = some i := by
  unfold parseIntChars intToChars
  by_cases hi : i < 0
  · rw [if_pos hi]
    simp only [List.head?_cons, if_pos rfl, List.tail_cons]
    rw [parseNat_natToChars]
    simp only [if_true, Option.map_some', Option.some.injEq, Int.ofNat_eq_coe]
    omega
  · rw [if_neg hi]
    have hhd : (natToChars i.natAbs).head? ≠ some '-' := by
      cases hcs : natToChars i.natAbs with
      | nil => exact absurd hcs (natToChars_ne_nil _)
      | cons c cs =>
        have hdg : c.isDigit = true := by
          have hall := natToChars_all_digit i.natAbs
          rw [hcs] at hall
          simp only [List.all_cons, Bool.and_eq_true] at hall
          exact hall.1
        simp only [List.head?_cons, ne_eq, Option.some.injEq]
        intro hcon
        rw [hcon] at hdg
        exact absurd hdg (by decide)
    rw [if_neg hhd]
    rw [parseNat_natToChars]
    simp only [Option.map_some', Option.some.injEq, Int.ofNat_eq_coe]
    omega

theorem zfill_of_ge {w : Nat} {s : String} (h : w ≤ s.length) :
    zfill w s = s := by
  unfold zfill
  rw [if_pos h]

theorem exchange_ofValue_value (e : Exchange) :
    Exchange.ofValue e.value = some e := by
  cases e <;> rfl

theorem status_ofValue_value (s : CompanyStatus) :
    CompanyStatus.ofValue s.value = some s := by
  cases s <;> rfl

theorem cellOpt_optCell {o : Option String} (h : o ≠ some "") :
    cellOpt (optCell o) = o := by
  cases o with
  | none => rfl
  | some s =>
    unfold cellOpt optCell
    simp only [Option.getD_some]
    rw [if_neg (fun hcon => h (by rw [hcon]))]

theorem isoformat_ne_empty (d : DateTime) : d.isoformat ≠ "" := by
  unfold DateTime.isoformat DateTime.isoChars pad4 pad2
  intro hcon
  simpa using congrArg String.data hcon

theorem cellOpt_isoformat (d : DateTime) :
    cellOpt d.isoformat = some d.isoformat := by
  unfold cellOpt
  rw [if_neg (isoformat_ne_empty d)]

theorem cellOpt_of_ne {s : String} (h : s ≠ "") : cellOpt s = some s := by
  unfold cellOpt
  rw [if_neg h]

theorem mk_ne_empty {l : List Char} (h : l ≠ []) : String.mk l ≠ "" := by
  intro hcon
  exact h (by simpa using congrArg String.data hcon)

theorem intToChars_ne_nil (i : Int) : intToChars i ≠ [] := by
  unfold intToChars
  split
  · simp
  · exact natToChars_ne_nil _

theorem strNeEmptyOfLen {s : String} (h : 1 ≤ s.length) : s ≠ "" := by
  intro hcon
  rw [hcon] at h
  simp at h

theorem exchange_value_ne_empty (e : Exchange) : e.value ≠ "" := by
  cases e <;> decide

theorem status_value_ne_empty (s : CompanyStatus) : s.value ≠ "" := by
  cases s <;> decide

theorem except_bind_ok {α β : Type} (a : α) (f : α → Except PyErr β) :
    (Except.ok a : Except PyErr α) >>= f = f a := rfl

theorem checkThat_true : checkThat true = .ok () := rfl

theorem companyOfRow_toRow (c : Company) (hv : c.validb = true)
    (hb : c.noBlankOpts = true) : companyOfRow (companyToRow c) = .ok c := by
  unfold Company.validb at hv
  simp only [Bool.and_eq_true, decide_eq_true_eq] at hv
  obtain ⟨⟨⟨⟨⟨⟨⟨⟨h1, h2⟩, h3⟩, h4⟩, h5⟩, h6⟩, h7⟩, h8⟩, h9⟩ := hv
  unfold Company.noBlankOpts at hb
  simp only [Bool.and_eq_true, decide_eq_true_eq, ne_eq] at hb
  obtain ⟨⟨⟨⟨⟨b1, b2⟩, b3⟩, b4⟩, b5⟩, b6⟩ := hb
  have hzf : zfill 10 c.cik = c.cik := zfill_of_ge (le_of_eq h1.symm)
  have e1 : rowCell (companyToRow c) "created_at" =
      some c.createdAt.isoformat := by
    unfold rowCell
    rw [show rowGet (companyToRow c) "created_at" =
      some c.createdAt.isoformat from rfl]
    exact cellOpt_isoformat _
  have e2 : rowCell (companyToRow c) "updated_at" =
      c.updatedAt.map DateTime.isoformat := by
    unfold rowCell
    cases hcu : c.updatedAt with
    | none =>
      rw [show rowGet (companyToRow c) "updated_at" =
        some (match c.updatedAt with
          | some d => d.isoformat
          | none => "") from rfl]
      rw [hcu]
      rfl
    | some d =>
      rw [show rowGet (companyToRow c) "updated_at" =
        some (match c.updatedAt with
          | some d => d.isoformat
          | none => "") from rfl]
      rw [hcu]
      simp only [Option.getD_some, Option.map_some']
      exact cellOpt_isoformat _
  have e3 : rowCell (companyToRow c) "created_by" = c.createdBy := by
    unfold rowCell
    rw [show rowGet (companyToRow c) "created_by" =
      some (optCell c.createdBy) from rfl]
    exact cellOpt_optCell b1
  have e4 : rowCell (companyToRow c) "updated_by" = c.updatedBy := by
    unfold rowCell
    rw [show rowGet (companyToRow c) "updated_by" =
      some (optCell c.updatedBy) from rfl]
    exact cellOpt_optCell b2
  have e5 : rowCell (companyToRow c) "version" =
      some (String.mk (intToChars c.version)) := by
    unfold rowCell
    rw [show rowGet (companyToRow c) "version" =
      some (String.mk (intToChars c.version)) from rfl]
    exact cellOpt_of_ne (mk_ne_empty (intToChars_ne_nil _))
  have e6 : rowCell (companyToRow c) "cik" = some c.cik := by
    unfold rowCell
    rw [show rowGet (companyToRow c) "cik" = some (zfill 10 c.cik) from rfl]
    rw [hzf]
    exact cellOpt_of_ne (strNeEmptyOfLen (show 1 ≤ c.cik.length by omega))
  have e7 : rowCell (companyToRow c) "symbol" = some c.symbol := by
    unfold rowCell
    rw [show rowGet (companyToRow c) "symbol" = some c.symbol from rfl]
    exact cellOpt_of_ne (strNeEmptyOfLen h3)
  have e8 : rowCell (companyToRow c) "name" = some c.name := by
    unfold rowCell
    rw [show rowGet (companyToRow c) "name" = some c.name from rfl]
    exact cellOpt_of_ne (strNeEmptyOfLen h6)
  have e9 : rowCell (companyToRow c) "exchange" =
      some c.exchange.value := by
    unfold rowCell
    rw [show rowGet (companyToRow c) "exchange" =
      some c.exchange.value from rfl]
    exact cellOpt_of_ne (exchange_value_ne_empty _)
  have e10 : rowCell (companyToRow c) "status" = some c.status.value := by
    unfold rowCell
    rw [show rowGet (companyToRow c) "status" =
      some c.status.value from rfl]
    exact cellOpt_of_ne (status_value_ne_empty _)
  have e11 : rowCell (companyToRow c) "description" = c.description := by
    unfold rowCell
    rw [show rowGet (companyToRow c) "description" =
      some (optCell c.description) from rfl]
    exact cellOpt_optCell b3
  have e12 : rowCell (companyToRow c) "sector" = c.sector := by
    unfold rowCell
    rw [show rowGet (companyToRow c) "sector" =
      some (optCell c.sector) from rfl]
    exact cellOpt_optCell b4
  have e13 : rowCell (companyToRow c) "industry" = c.industry := by
    unfold rowCell
    rw [show rowGet (companyToRow c) "industry" =
      some (optCell c.industry) from rfl]
    exact cellOpt_optCell b5
  have e14 : rowCell (companyToRow c) "website" = c.website := by
    unfold rowCell
    rw [show rowGet (companyToRow c) "website" =
      some (optCell c.website) from rfl]
    exact cellOpt_optCell b6
  have r1 : readReqDate (some c.createdAt.isoformat) = .ok c.createdAt := by
    simp only [readReqDate, parseIso_isoformat _ h8]
  have r2 : readOptDate (c.updatedAt.map DateTime.isoformat) =
      .ok c.updatedAt := by
    cases hcu : c.updatedAt with
    | none => rfl
    | some d =>
      have hdwf : d.wf := by
        rw [hcu] at h9
        simpa using h9
      simp only [Option.map_some', readOptDate, parseIso_isoformat _ hdwf]
  have r3 : readReqInt (some (String.mk (intToChars c.version))) =
      .ok c.version := by
    simp only [readReqInt]
    rw [parseInt_intToChars]
  have hchk1 : (c.cik.data.all Char.isDigit && decide (c.cik.length = 10)) =
      true := by
    rw [h2, decide_eq_true h1]
    rfl
  have hchk2 : (decide (1 ≤ c.symbol.length) &&
      decide (c.symbol.length ≤ 10)) = true := by
    rw [decide_eq_true h3, decide_eq_true h4]
    rfl
  have hchk3 : (decide (1 ≤ c.name.length) &&
      decide (c.name.length ≤ 200)) = true := by
    rw [decide_eq_true h6, decide_eq_true h7]
    rfl
  simp only [companyOfRow, e1, e2, e3, e4, e5, e6, e7, e8, e9, e10, e11,
    e12, e13, e14, r1, r2, r3, except_bind_ok, readReqStr, hzf,
    Option.getD_some, exchange_ofValue_value, status_ofValue_value,
    hchk1, hchk2, hchk3, checkThat_true, h5]

theorem csvAdd_ok_inversion {α : Type} (repo : CsvRepo α) (st : Store)
    (e : α) (h : (csvAdd repo st e).error = none) :
    (csvAdd repo st e).store = st ++ [repo.toRow e] ∧
    ∀ r ∈ st, ¬ readKeyCell repo.keyField r = zfill 10 (repo.keyOf e) := by
  unfold csvAdd at *
  by_cases hc :
      st.any (fun r => readKeyCell repo.keyField r = zfill 10 (repo.keyOf e))
      = true
  · rw [if_pos hc] at h
    simp at h
  · rw [if_neg hc] at h ⊢
    refine ⟨rfl, ?_⟩
    intro r hr hcon
    exact hc (List.any_eq_true.mpr ⟨r, hr, decide_eq_true hcon⟩)

theorem csvAdd_duplicate_spec {α : Type} (repo : CsvRepo α)
    (st : Store) (e : α)
    (h : ∃ r ∈ st, readKeyCell repo.keyField r = zfill 10 (repo.keyOf e)) :
    (csvAdd repo st e).error =
      some (.duplicateEntity repo.keyField (zfill 10 (repo.keyOf e))) ∧
    (csvAdd repo st e).store = st := by
  obtain ⟨r, hr, hk⟩ := h
  have hany :
      st.any (fun r => readKeyCell repo.keyField r = zfill 10 (repo.keyOf e))
      = true := by
    rw [List.any_eq_true]
    exact ⟨r, hr, by simp [hk]⟩
  unfold csvAdd
  rw [if_pos hany]
  exact ⟨rfl, rfl⟩

/-- Claim C2: when a record's normalized key equals the key of a stored
record, `add` raises the duplicate-key error and the persisted state is
unchanged. -/
theorem c2_add_rejects_duplicate_key {α : Type} (repo : CsvRepo α)
    (st : Store) (e : α)
    (h : ∃ r ∈ st, readKeyCell repo.keyField r = zfill 10 (repo.keyOf e)) :
    (csvAdd repo st e).error =
      some (.duplicateEntity repo.keyField (zfill 10 (repo.keyOf e))) ∧
    (csvAdd repo st e).store = st :=
  csvAdd_duplicate_spec repo st e h

theorem c2_add_rejects_duplicate_key_witness :
    (csvAdd companyCsvRepo [companyToRow wCompany] wCompany).error =
      some (.duplicateEntity "cik" "0000320193") ∧
    (csvAdd companyCsvRepo [companyToRow wCompany] wCompany).store =
      [companyToRow wCompany] := by
  have h := c2_add_rejects_duplicate_key companyCsvRepo
    [companyToRow wCompany] wCompany
    ⟨companyToRow wCompany, by simp, by decide⟩
  exact h

/-- Claim C6 counterexample: with the report store keyed on `symbol` alone,
a report for the same symbol on a different day is rejected as a duplicate,
not silently allowed. -/
theorem c6_other_day_report_rejected :
    wReport.symbol = wReportOtherDay.symbol ∧
    ¬ wReport.reportDate = wReportOtherDay.reportDate ∧
    (csvAdd earningsCsvRepo [earningsToRow wReport] wReportOtherDay).error =
      some (.duplicateEntity "symbol" "000000AAPL") ∧
    (csvAdd earningsCsvRepo [earningsToRow wReport] wReportOtherDay).store =
      [earningsToRow wReport] :=
  ⟨by decide, by decide, by decide, by decide⟩

/-- Claim C6 (amended): `add` on the report store rejects a second report
for a stored symbol whatever its report date — the same-day rejection the
claim states, and equally the rejection of the same report re-dated to any
other day, since the duplicate check never consults the date. -/
theorem c6_duplicate_symbol_rejected_any_date (st : Store)
    (r : EarningsReport) (d : DateTime)
    (h : ∃ row ∈ st, readKeyCell "symbol" row = zfill 10 r.symbol) :
    (csvAdd earningsCsvRepo st r).error =
      some (.duplicateEntity "symbol" (zfill 10 r.symbol)) ∧
    (csvAdd earningsCsvRepo st { r with reportDate := d }).error =
      some (.duplicateEntity "symbol" (zfill 10 r.symbol)) := by
  have h1 := csvAdd_duplicate_spec earningsCsvRepo st r h
  have h2 := csvAdd_duplicate_spec earningsCsvRepo st
    { r with reportDate := d } h
  exact ⟨h1.1, h2.1⟩

theorem c6_duplicate_symbol_rejected_any_date_witness :
    (csvAdd earningsCsvRepo [earningsToRow wReport] wReport).error =
      some (.duplicateEntity "symbol" (zfill 10 wReport.symbol)) ∧
    (csvAdd earningsCsvRepo [earningsToRow wReport]
        { wReport with reportDate := ⟨2025, 1, 15, 0, 0, 0, 0⟩ }).error =
      some (.duplicateEntity "symbol" (zfill 10 wReport.symbol)) :=
  c6_duplicate_symbol_rejected_any_date [earningsToRow wReport] wReport
    ⟨2025, 1, 15, 0, 0, 0, 0⟩ ⟨earningsToRow wReport, by simp, by decide⟩

/-- Claim C3 counterexample: a batch whose two records share one key is
accepted whole — `add_many` never compares the batch against itself, so
both rows are persisted and no error is raised. -/
theorem c3_intra_batch_duplicates_accepted :
    (csvAddMany companyCsvRepo [] [wCompany, wCompany]).error = none ∧
    (csvAddMany companyCsvRepo [] [wCompany, wCompany]).store =
      [companyToRow wCompany, companyToRow wCompany] :=
  ⟨by decide, by decide⟩

/-- Claim C4 (amended): a valid record none of whose optional string fields
is the empty string, once added, reads back field-for-field equal, the key
re-normalized and the timestamps at the same instants. -/
theorem c4_roundtrip_no_blank_fields (st : Store) (c : Company)
    (hv : c.validb = true) (hb : c.noBlankOpts = true)
    (hok : (csvAdd companyCsvRepo st c).error = none) :
    companyGet (csvAdd companyCsvRepo st c).store c.cik = .ok (some c) := by
  obtain ⟨hstore, hnone⟩ := csvAdd_ok_inversion _ _ _ hok
  simp only [companyCsvRepo] at hstore hnone ⊢
  have h1 : c.cik.length = 10 := by
    unfold Company.validb at hv
    simp only [Bool.and_eq_true, decide_eq_true_eq] at hv
    exact hv.1.1.1.1.1.1.1.1
  have hzf : zfill 10 c.cik = c.cik := zfill_of_ge (le_of_eq h1.symm)
  rw [hstore]
  unfold companyGet
  have hfind : csvFindRow "cik" (st ++ [companyToRow c]) c.cik =
      some (companyToRow c) := by
    unfold csvFindRow
    rw [List.find?_append]
    have hl : st.find? (fun r => readKeyCell "cik" r = zfill 10 c.cik) =
        none := by
      rw [List.find?_eq_none]
      intro r hr
      simp only [decide_eq_true_eq]
      exact hnone r hr
    rw [hl]
    simp only [Option.none_or]
    have hpred : readKeyCell "cik" (companyToRow c) = zfill 10 c.cik := by
      unfold readKeyCell
      rw [show rowGet (companyToRow c) "cik" =
        some (zfill 10 c.cik) from rfl]
      simp only [Option.getD_some]
      rw [hzf]
      exact hzf
    simp [List.find?, hpred, hzf]
  rw [hfind]
  show Except.map some (companyOfRow (companyToRow c)) = Except.ok (some c)
  rw [companyOfRow_toRow c hv hb]
  rfl

theorem c4_roundtrip_no_blank_fields_witness :
    wCompany.validb = true ∧ wCompany.noBlankOpts = true ∧
    (csvAdd companyCsvRepo [] wCompany).error = none ∧
    companyGet (csvAdd companyCsvRepo [] wCompany).store wCompany.cik =
      .ok (some wCompany) :=
  ⟨by decide, by decide, by decide,
    c4_roundtrip_no_blank_fields [] wCompany (by decide) (by decide)
      (by decide)⟩

/-- Claim C4 counterexample: a valid record whose optional `description` is
the empty string is accepted by `add` but reads back with `description`
missing — not field-for-field equal to what was written. -/
theorem c4_blank_optional_breaks_roundtrip :
    cexBlankCompany.validb = true ∧
    (csvAdd companyCsvRepo [] cexBlankCompany).error = none ∧
    companyGet (csvAdd companyCsvRepo [] cexBlankCompany).store
        cexBlankCompany.cik = .ok (some cexBlankRead) ∧
    cexBlankRead ≠ cexBlankCompany := by
  refine ⟨by decide, by decide, by decide, by decide⟩

/-- Claim C3 (amended): `add_many` fails atomically — error raised, store
unchanged — exactly when some record's serialized key matches an existing
stored key; otherwise the whole batch is appended, keys duplicated within
the batch included. -/
theorem c3_add_many_checks_existing_only {α : Type} (repo : CsvRepo α)
    (st : Store) (es : List α) :
    ((∃ r ∈ st, ∃ e ∈ es,
        (rowGet (repo.toRow e) repo.keyField).getD "" =
          readKeyCell repo.keyField r) →
      (csvAddMany repo st es).error = some .duplicateEntities ∧
      (csvAddMany repo st es).store = st) ∧
    ((¬ ∃ r ∈ st, ∃ e ∈ es,
        (rowGet (repo.toRow e) repo.keyField).getD "" =
          readKeyCell repo.keyField r) →
      (csvAddMany repo st es).error = none ∧
      (csvAddMany repo st es).store = st ++ es.map repo.toRow) := by
  cases es with
  | nil =>
    constructor
    · intro h
      simp at h
    · intro _
      simp [csvAddMany]
  | cons a t =>
    have hcondiff :
        (st.any (fun r =>
          (((a :: t).map repo.toRow).map
            (fun r2 => (rowGet r2 repo.keyField).getD "")).contains
            (readKeyCell repo.keyField r)) = true) ↔
        (∃ r ∈ st, ∃ e ∈ a :: t,
          (rowGet (repo.toRow e) repo.keyField).getD "" =
            readKeyCell repo.keyField r) := by
      simp only [List.any_eq_true, List.map_map, List.elem_eq_mem,
        List.mem_map, Function.comp, decide_eq_true_eq]
    constructor
    · intro hex
      have hc := hcondiff.mpr hex
      simp only [csvAddMany]
      rw [if_pos hc]
      exact ⟨rfl, rfl⟩
    · intro hnex
      have hc : ¬ (st.any (fun r =>
          (((a :: t).map repo.toRow).map
            (fun r2 => (rowGet r2 repo.keyField).getD "")).contains
            (readKeyCell repo.keyField r)) = true) :=
        fun hcc => hnex (hcondiff.mp hcc)
      simp only [csvAddMany]
      rw [if_neg hc]
      exact ⟨rfl, rfl⟩

theorem c3_add_many_checks_existing_only_witness :
    (csvAddMany companyCsvRepo [companyToRow wCompany] [wCompanyB]).error =
      none ∧
    (csvAddMany companyCsvRepo [companyToRow wCompany] [wCompanyB]).store =
      [companyToRow wCompany] ++ [wCompanyB].map companyToRow ∧
    (csvAddMany companyCsvRepo [companyToRow wCompany] [wCompany]).error =
      some .duplicateEntities ∧
    (csvAddMany companyCsvRepo [companyToRow wCompany] [wCompany]).store =
      [companyToRow wCompany] := by
  have hclean :=
    (c3_add_many_checks_existing_only companyCsvRepo
      [companyToRow wCompany] [wCompanyB]).2 (by decide)
  have hdup :=
    (c3_add_many_checks_existing_only companyCsvRepo
      [companyToRow wCompany] [wCompany]).1
      ⟨companyToRow wCompany, by simp, wCompany, by simp, by decide⟩
  exact ⟨hclean.1, hclean.2, hdup.1, hdup.2⟩

/-- Claim C1: what `_make_request` actually does on a 429 and on a
non-JSON success response — the `except Exception` clause wraps both the
`RateLimitError` and the JSON-parse `APIError` into a generic `APIError`
with the status code and the raw response body discarded, and the retry
decorator then retries them: five attempts are dispatched against a
persistently rate-limiting endpoint, and a non-JSON body is retried rather
than surfaced as a first-attempt permanent error. -/
theorem c1_rate_limit_wrapped_and_retried :
    makeRequest 5 "url"
        (List.replicate 5 (.response 429 true "slow down")) =
      (.error (.apiError "Request to url failed: Rate limit exceeded"
        none none), 5) ∧
    makeRequest 5 "url"
        [.response 200 false "html body", .response 200 true "ok"] =
      (.ok "ok", 2) :=
  ⟨by decide, by decide⟩

/-- Claim C5: the end-to-end scenario — the raw report row for AAPL on
2024-11-30 with time `16:30` and EPS pair `1.43`/`1.52` produces exactly
one report, with surprise the exact decimal `0.09`, the unspecified session
tag, and the record written to both the date partition and the master
file. -/
theorem c5_end_to_end_ingestion :
    processEarningsData c5now c5lookup [c5row] = [c5report] ∧
    c5report.epsSurprise = some ⟨9, 2⟩ ∧
    Dec.val ⟨9, 2⟩ = 9 / 100 ∧
    c5report.marketSession = .unspecified ∧
    fetchDailyEarnings true c5now c5lookup c5date [c5row] ⟨[], []⟩ =
      (.ok [c5report],
        ⟨[(dailyFileName c5date, [earningsToRow c5report])],
          [earningsToRow c5report]⟩) :=
  ⟨by decide, by decide, by norm_num [Dec.val], by decide, by decide⟩

/-- Claim C10: when the by-symbol range query is empty, `get_summary`
returns the not-found value, although `from_reports` raises `ValueError`
on an empty list — the empty case never reaches it. -/
theorem c10_empty_range_summary_none (st : Store) (symbol : String)
    (a b : DateTime) (h : getBySymbol st symbol a b = .ok []) :
    getSummary st symbol a b = .ok none ∧
    fromReports [] a b =
      .error (.valueErr "Cannot create summary from empty reports list") := by
  constructor
  · unfold getSummary
    rw [h]
  · rfl

theorem c10_empty_range_summary_none_witness :
    getBySymbol [] "AAPL" c5date c5date = .ok [] ∧
    getSummary [] "AAPL" c5date c5date = .ok none ∧
    fromReports [] c5date c5date =
      .error (.valueErr "Cannot create summary from empty reports list") :=
  ⟨rfl, (c10_empty_range_summary_none [] "AAPL" c5date c5date rfl).1,
    (c10_empty_range_summary_none [] "AAPL" c5date c5date rfl).2⟩

theorem mapOpt_mem {α β : Type} (f : α → Option β) (l : List α)
    (res : List β) (h : mapOpt f l = some res) :
    ∀ x ∈ l, ∀ y, f x = some y → y ∈ res := by
  induction l generalizing res with
  | nil =>
    intro x hx
    simp at hx
  | cons a t ih =>
    simp only [mapOpt] at h
    cases hfa : f a with
    | none =>
      rw [hfa] at h
      exact absurd h (by simp)
    | some b =>
      rw [hfa] at h
      cases hmt : mapOpt f t with
      | none =>
        rw [hmt] at h
        exact absurd h (by simp)
      | some bs =>
        rw [hmt] at h
        simp only [Option.some.injEq] at h
        subst h
        intro x hx y hfy
        rcases List.mem_cons.mp hx with rfl | hxt
        · rw [hfa] at hfy
          simp only [Option.some.injEq] at hfy
          subst hfy
          exact List.mem_cons_self _ _
        · exact List.mem_cons_of_mem _ (ih bs hmt x hxt y hfy)

theorem DateTime.leb_refl (d : DateTime) : d.leb d = true := by
  simp [DateTime.leb]

/-- Claim C9: `get_by_date_range` is inclusive on both bounds — every
returned record's parsed timestamp lies in `[start, end]`, and a stored row
whose timestamp is exactly `start` or exactly `end` is in the result. -/
theorem c9_date_range_inclusive (st : Store) (startD endD : DateTime)
    (l : List (Row × DateTime)) (hrange : startD.leb endD = true)
    (hok : getByDateRange "report_date" st startD endD = .ok l) :
    (∀ p ∈ l, startD.leb p.2 = true ∧ p.2.leb endD = true) ∧
    (∀ r ∈ st, parseIso ((rowGet r "report_date").getD "") = some startD →
      (r, startD) ∈ l) ∧
    (∀ r ∈ st, parseIso ((rowGet r "report_date").getD "") = some endD →
      (r, endD) ∈ l) := by
  unfold getByDateRange at hok
  cases hpd : parseAllDates "report_date" st with
  | none =>
    rw [hpd] at hok
    exact absurd hok (by simp)
  | some pl =>
    rw [hpd] at hok
    simp only [Except.ok.injEq] at hok
    subst hok
    refine ⟨?_, ?_, ?_⟩
    · intro p hp
      have hf := List.of_mem_filter hp
      simp only [Bool.and_eq_true] at hf
      exact hf
    · intro r hr hparse
      have hmem : (r, startD) ∈ pl :=
        mapOpt_mem _ _ _ hpd r hr (r, startD) (by rw [hparse]; rfl)
      refine List.mem_filter.mpr ⟨hmem, ?_⟩
      simp only [Bool.and_eq_true]
      exact ⟨DateTime.leb_refl startD, hrange⟩
    · intro r hr hparse
      have hmem : (r, endD) ∈ pl :=
        mapOpt_mem _ _ _ hpd r hr (r, endD) (by rw [hparse]; rfl)
      refine List.mem_filter.mpr ⟨hmem, ?_⟩
      simp only [Bool.and_eq_true]
      exact ⟨hrange, DateTime.leb_refl endD⟩

theorem c9_date_range_inclusive_witness :
    (∀ p ∈ [(earningsToRow wReport, wReport.reportDate)],
      DateTime.leb wReport.reportDate p.2 = true ∧
      DateTime.leb p.2 wReport.reportDate = true) ∧
    (earningsToRow wReport, wReport.reportDate) ∈
      [(earningsToRow wReport, wReport.reportDate)] := by
  have h := c9_date_range_inclusive [earningsToRow wReport]
    wReport.reportDate wReport.reportDate
    [(earningsToRow wReport, wReport.reportDate)]
    (DateTime.leb_refl _) (by decide)
  exact ⟨h.1, h.2.1 (earningsToRow wReport) (by simp) (by decide)⟩

theorem updateLoop_map_fst (next : Nat → Nat)
    (fetch : Nat → Except PyErr Nat) (fuel cur last : Nat) :
    (updateLoop next fetch fuel cur last).map Prod.fst =
      tradingWalk next fuel cur last := by
  induction fuel generalizing cur with
  | zero => rfl
  | succ fuel ih =>
    simp only [updateLoop, tradingWalk]
    split
    · simp [ih]
    · rfl

theorem updateLoop_counts (next : Nat → Nat)
    (fetch : Nat → Except PyErr Nat) (fuel cur last : Nat) :
    ∀ p ∈ updateLoop next fetch fuel cur last,
      p.2 = dailyCount fetch p.1 := by
  induction fuel generalizing cur with
  | zero =>
    intro p hp
    simp [updateLoop] at hp
  | succ fuel ih =>
    intro p hp
    simp only [updateLoop] at hp
    split at hp
    · rcases List.mem_cons.mp hp with rfl | hrest
      · rfl
      · exact ih (next cur) p hrest
    · simp at hp

theorem updateLoop_bounds (next : Nat → Nat)
    (fetch : Nat → Except PyErr Nat) (fuel cur last : Nat)
    (hnext : ∀ d, d < next d) :
    ∀ p ∈ updateLoop next fetch fuel cur last,
      cur ≤ p.1 ∧ p.1 ≤ last := by
  induction fuel generalizing cur with
  | zero =>
    intro p hp
    simp [updateLoop] at hp
  | succ fuel ih =>
    intro p hp
    simp only [updateLoop] at hp
    split at hp
    · rcases List.mem_cons.mp hp with rfl | hrest
      · exact ⟨Nat.le_refl _, by omega⟩
      · have h2 := ih (next cur) p hrest
        have h3 := hnext cur
        exact ⟨by omega, h2.2⟩
    · simp at hp

/-- Claim C7: the range walk steps by the trading-calendar oracle's
next-trading-day function, visits only dates in `[start, end]`, records the
fetched report count per date with an erroring date recorded as zero, and —
whatever the fetch outcomes — the visited date sequence is unchanged: a
per-date failure never stops the walk or escapes it. -/
theorem c7_range_walk_oracle_stepping (next : Nat → Nat)
    (fetch : Nat → Except PyErr Nat) (s e : Nat)
    (hnext : ∀ d, d < next d) :
    (updateEarningsData next fetch s e).map Prod.fst = tradingDays next s e ∧
    (∀ p ∈ updateEarningsData next fetch s e, s ≤ p.1 ∧ p.1 ≤ e) ∧
    (∀ d ∈ tradingDays next s e, ∀ err, fetch d = .error err →
      (d, 0) ∈ updateEarningsData next fetch s e) ∧
    (∀ d ∈ tradingDays next s e, ∀ n, fetch d = .ok n →
      (d, n) ∈ updateEarningsData next fetch s e) := by
  have hmap := updateLoop_map_fst next fetch (e + 1 - s) s e
  refine ⟨hmap, updateLoop_bounds next fetch (e + 1 - s) s e hnext,
    ?_, ?_⟩
  · intro d hd err herr
    have hd2 : d ∈ (updateEarningsData next fetch s e).map Prod.fst := by
      show d ∈ (updateLoop next fetch (e + 1 - s) s e).map Prod.fst
      rw [hmap]
      exact hd
    obtain ⟨p, hp, hpd⟩ := List.mem_map.mp hd2
    have hc := updateLoop_counts next fetch (e + 1 - s) s e p hp
    have : p = (d, 0) := by
      cases p
      simp only at hpd
      subst hpd
      simp [dailyCount, herr] at hc
      simp [hc]
    rw [← this]
    exact hp
  · intro d hd n hn
    have hd2 : d ∈ (updateEarningsData next fetch s e).map Prod.fst := by
      show d ∈ (updateLoop next fetch (e + 1 - s) s e).map Prod.fst
      rw [hmap]
      exact hd
    obtain ⟨p, hp, hpd⟩ := List.mem_map.mp hd2
    have hc := updateLoop_counts next fetch (e + 1 - s) s e p hp
    have : p = (d, n) := by
      cases p
      simp only at hpd
      subst hpd
      simp [dailyCount, hn] at hc
      simp [hc]
    rw [← this]
    exact hp

theorem c7_range_walk_oracle_stepping_witness :
    (updateEarningsData Nat.succ wFetch 0 3).map Prod.fst =
      tradingDays Nat.succ 0 3 ∧
    (1, 0) ∈ updateEarningsData Nat.succ wFetch 0 3 ∧
    (2, 2) ∈ updateEarningsData Nat.succ wFetch 0 3 := by
  have h := c7_range_walk_oracle_stepping Nat.succ wFetch 0 3
    (fun d => Nat.lt_succ_self d)
  exact ⟨h.1, h.2.2.1 1 (by decide) (.apiError "boom" none none) rfl,
    h.2.2.2 2 (by decide) 2 rfl⟩

theorem csvAddMany_ok_store {α : Type} (repo : CsvRepo α) (st : Store)
    (es : List α) (h : (csvAddMany repo st es).error = none) :
    (csvAddMany repo st es).store = st ++ es.map repo.toRow := by
  cases es with
  | nil => simp [csvAddMany]
  | cons a t =>
    simp only [csvAddMany] at h ⊢
    split
    · rename_i hc
      rw [if_pos hc] at h
      simp at h
    · rfl

theorem processSecRow_ok_some (now : DateTime) (cur : List String)
    (row : SecRow) (c : Company)
    (h : processSecRow now cur row = .ok (some c)) :
    c.symbol ∉ cur := by
  simp only [processSecRow] at h
  split at h
  · exact absurd h (by simp)
  · split at h
    · exact absurd h (by simp)
    · rename_i hfalsy hncontains
      split at h
      · exact absurd h (by simp)
      · split at h
        · exact absurd h (by simp)
        · split at h
          · simp only [Except.ok.injEq, Option.some.injEq] at h
            subst h
            intro hmem
            exact hncontains (by simpa using hmem)
          · exact absurd h (by simp)

theorem newCompaniesOf_cons_skip (now : DateTime) (cur : List String)
    (row : SecRow) (rest : List SecRow)
    (h : ∀ c, ¬ processSecRow now cur row = .ok (some c)) :
    newCompaniesOf now cur (row :: rest) = newCompaniesOf now cur rest := by
  unfold newCompaniesOf
  rw [List.filterMap_cons]
  cases hps : processSecRow now cur row with
  | error e => rfl
  | ok oc =>
    cases oc with
    | none => rfl
    | some c => exact absurd hps (fun hcon => h c hcon)

theorem newCompaniesOf_cons_take (now : DateTime) (cur : List String)
    (row : SecRow) (rest : List SecRow) (c : Company)
    (h : processSecRow now cur row = .ok (some c)) :
    newCompaniesOf now cur (row :: rest) =
      c :: newCompaniesOf now cur rest := by
  unfold newCompaniesOf
  rw [List.filterMap_cons, h]

theorem collectLoop_ok (now : DateTime) (cur : List String) :
    ∀ (rows : List SecRow) (accC : List Company) (accS : List String)
      (out : List Company × List String),
      collectLoop now cur rows accC accS = .ok out →
      out.1 = accC ++ newCompaniesOf now cur rows ∧
      (∀ s, s ∈ out.2 ↔ s ∈ accS ∨
        ∃ c ∈ newCompaniesOf now cur rows, c.symbol = s) := by
  intro rows
  induction rows with
  | nil =>
    intro accC accS out h
    simp only [collectLoop, Except.ok.injEq] at h
    subst h
    simp [newCompaniesOf]
  | cons row rest ih =>
    intro accC accS out h
    simp only [collectLoop] at h
    cases hrow : processSecRow now cur row with
    | error e =>
      rw [hrow] at h
      exact absurd h (by simp)
    | ok oc =>
      rw [hrow] at h
      cases oc with
      | none =>
        have hskip : newCompaniesOf now cur (row :: rest) =
            newCompaniesOf now cur rest :=
          newCompaniesOf_cons_skip now cur row rest
            (fun c hcon => by rw [hrow] at hcon; simp at hcon)
        have hres := ih accC accS out h
        rw [hskip]
        exact hres
      | some c =>
        have htake : newCompaniesOf now cur (row :: rest) =
            c :: newCompaniesOf now cur rest :=
          newCompaniesOf_cons_take now cur row rest c hrow
        have hres := ih (accC ++ [c])
          (if accS.contains c.symbol then accS else accS ++ [c.symbol])
          out h
        rw [htake]
        constructor
        · rw [hres.1]
          simp
        · intro s1
          rw [hres.2 s1]
          constructor
          · rintro (hs | ⟨c2, hc2, rfl⟩)
            · by_cases hcon : accS.contains c.symbol
              · rw [if_pos hcon] at hs
                exact Or.inl hs
              · rw [if_neg hcon] at hs
                rcases List.mem_append.mp hs with h1 | h1
                · exact Or.inl h1
                · simp only [List.mem_singleton] at h1
                  subst h1
                  exact Or.inr ⟨c, List.mem_cons_self _ _, rfl⟩
            · exact Or.inr ⟨c2, List.mem_cons_of_mem _ hc2, rfl⟩
          · rintro (hs | ⟨c2, hc2, rfl⟩)
            · refine Or.inl ?_
              by_cases hcon : accS.contains c.symbol
              · rw [if_pos hcon]
                exact hs
              · rw [if_neg hcon]
                exact List.mem_append_left _ hs
            · rcases List.mem_cons.mp hc2 with rfl | h2
              · by_cases hcon : accS.contains c2.symbol
                · refine Or.inl ?_
                  rw [if_pos hcon]
                  simpa using hcon
                · refine Or.inl ?_
                  rw [if_neg hcon]
                  exact List.mem_append_right _ (by simp)
              · exact Or.inr ⟨c2, h2, rfl⟩

/-- Claim C8 (amended): whenever the sync returns normally, the returned
symbols are exactly the symbols of the records built from the rows the loop
accepted — all previously unknown — and exactly those records are appended
to the store; a row the loop skips contributes nothing of its own.  A row
missing the `cik_str` or `title` key, or a storage-level key collision,
instead aborts the whole sync with an error (no partial persistence of the
accepted rows either way). -/
theorem c8_sync_new_symbols_characterization (now : DateTime) (st : Store)
    (rows : List SecRow) (syms : List String) (st2 : Store)
    (cur : List Company) (hcur : getAllCompanies st = .ok cur)
    (hok : updateCompanyList now st rows = .ok (syms, st2)) :
    st2 = st ++
      (newCompaniesOf now (cur.map (fun c => c.symbol)) rows).map
        companyToRow ∧
    (∀ s, s ∈ syms ↔
      ∃ c ∈ newCompaniesOf now (cur.map (fun c => c.symbol)) rows,
        c.symbol = s) ∧
    (∀ c ∈ newCompaniesOf now (cur.map (fun c => c.symbol)) rows,
      c.symbol ∉ cur.map (fun c => c.symbol)) := by
  simp only [updateCompanyList, hcur] at hok
  have hnk : ∀ c ∈ newCompaniesOf now (cur.map (fun c => c.symbol)) rows,
      c.symbol ∉ cur.map (fun c => c.symbol) := by
    intro c hc
    unfold newCompaniesOf at hc
    obtain ⟨row, hrow, hpr⟩ := List.mem_filterMap.mp hc
    cases hps : processSecRow now (cur.map (fun c => c.symbol)) row with
    | error e =>
      rw [hps] at hpr
      simp at hpr
    | ok oc =>
      cases oc with
      | none =>
        rw [hps] at hpr
        simp at hpr
      | some c2 =>
        rw [hps] at hpr
        simp only [Option.some.injEq] at hpr
        subst hpr
        exact processSecRow_ok_some now _ row c2 hps
  cases hcl : collectLoop now (cur.map fun c => c.symbol) rows [] [] with
  | error e =>
    rw [hcl] at hok
    exact absurd hok (by simp)
  | ok pr =>
    rw [hcl] at hok
    obtain ⟨newCs, newSyms⟩ := pr
    obtain ⟨hc1, hc2⟩ :=
      collectLoop_ok now (cur.map fun c => c.symbol) rows [] []
        (newCs, newSyms) hcl
    simp only [List.nil_append] at hc1
    simp only at hok hc1 hc2
    by_cases hemp : newCs.isEmpty
    · rw [if_pos hemp] at hok
      simp only [Except.ok.injEq, Prod.mk.injEq] at hok
      obtain ⟨hsy, hst⟩ := hok
      have hnil : newCompaniesOf now (cur.map (fun c => c.symbol)) rows
          = [] := by
        rw [← hc1]
        exact List.isEmpty_iff.mp hemp
      refine ⟨?_, ?_, hnk⟩
      · rw [← hst, hnil]
        simp
      · intro s1
        rw [← hsy, hc2 s1, hnil]
        simp
    · rw [if_neg hemp] at hok
      cases herr : (csvAddMany companyCsvRepo st newCs).error with
      | some e =>
        rw [herr] at hok
        exact absurd hok (by simp)
      | none =>
        rw [herr] at hok
        simp only [Except.ok.injEq, Prod.mk.injEq] at hok
        obtain ⟨hsy, hst⟩ := hok
        have hstore := csvAddMany_ok_store companyCsvRepo st newCs herr
        refine ⟨?_, ?_, hnk⟩
        · rw [← hst, hstore, hc1]
          rfl
        · intro s1
          rw [← hsy, hc2 s1]
          simp

/-- Claim C8 counterexample: one row missing the `cik_str` key makes the
whole sync raise `KeyError` — the well-formed sibling row is neither
persisted nor reported, although on its own it would be.  `except
ValueError` does not catch a `KeyError`. -/
theorem c8_missing_cik_key_aborts_sync :
    updateCompanyList c5now [] [badSecRow, goodSecRow] =
      .error (.keyErr "cik_str") ∧
    updateCompanyList c5now [] [goodSecRow] =
      .ok (["BBB"], [companyToRow goodCompany]) :=
  ⟨by decide, by decide⟩

theorem c8_sync_new_symbols_characterization_witness :
    ([companyToRow goodCompany] : Store) = [] ++
      (newCompaniesOf c5now [] [goodSecRow]).map companyToRow ∧
    ("BBB" ∈ (["BBB"] : List String) ↔
      ∃ c ∈ newCompaniesOf c5now [] [goodSecRow], c.symbol = "BBB") := by
  have h := c8_sync_new_symbols_characterization c5now [] [goodSecRow]
    ["BBB"] [companyToRow goodCompany] [] rfl (by decide)
  exact ⟨h.1, h.2.1 "BBB"⟩

end SecScraper
